import Mathlib

/-!
Verification of the CCEditor user script (`cc-editor-portal.user.js`).

The file shallowly embeds the script's components:

* `DynamicContentLoader` — the completion detector: a record of the mutable
  fields of the JS class (`isLoading`, `isComplete`, the two timer handles and
  the observer handle), with each method translated to a state-passing
  function.  Timer handles are modelled by the absolute time at which the
  pending one-shot timer would fire (`Option Nat`, `none` = cleared), and the
  `MutationObserver` handle by a `Bool` saying whether an observer is
  currently connected.
* a deterministic event-loop simulator `runAux`/`run`/`session` that delivers
  mutation events (given by their arrival times) and fires pending timers in
  time order, reproducing the single-threaded browser event queue: a cleared
  timer never fires, a disconnected observer delivers no mutation callbacks,
  and of two timers with the same deadline the one armed first (the absolute
  timeout, armed in `start`) fires first.
* `CCEditorLauncher.waitForDom` — modelled by `WaitDom`/`runCbCode`/`wfdTicks`.
* the DOM-injection guard `injectButton` and the `injected` getter, over a DOM
  subtree abstracted as the list of its elements' class names.
* `ChubAdapter` — the stateful global regex (`pattern`, flag `g`) is modelled
  by an explicit matcher over `List Char` plus the `lastIndex` cursor.
-/

set_option autoImplicit false

/-! ### Completion detector (`DynamicContentLoader`) -/

/-- Which of the two terminal callbacks was invoked. -/
inductive Callback where
  | complete : Callback
  | timeout : Callback
deriving DecidableEq, Repr

/-- The mutable state of a `DynamicContentLoader` instance.

`quietTimer` / `timeoutTimer` hold the absolute fire time of the pending
one-shot timer (`none` when cleared); `observer` records whether
`observer.observe(...)` has been called and not yet `disconnect()`ed;
`hasOnComplete` / `hasOnTimeout` record whether the corresponding callback
argument of `start` was non-null. -/
structure DynamicContentLoader where
  quietPeriod : Nat
  maxWaitTime : Nat
  quietTimer : Option Nat
  timeoutTimer : Option Nat
  observer : Bool
  isLoading : Bool
  isComplete : Bool
  hasOnComplete : Bool
  hasOnTimeout : Bool
deriving DecidableEq, Repr

namespace DynamicContentLoader

/-- The state produced by `new DynamicContentLoader({quietPeriod, maxWaitTime})`. -/
def init (quietPeriod maxWaitTime : Nat) : DynamicContentLoader :=
  { quietPeriod := quietPeriod
    maxWaitTime := maxWaitTime
    quietTimer := none
    timeoutTimer := none
    observer := false
    isLoading := false
    isComplete := false
    hasOnComplete := false
    hasOnTimeout := false }

/-- `resetQuietTimer()`: clear any pending quiet timer and arm a fresh one
`quietPeriod` from the current time `now`. -/
def resetQuietTimer (now : Nat) (s : DynamicContentLoader) : DynamicContentLoader :=
  { s with quietTimer := some (now + s.quietPeriod) }

/-- `cleanup()`: disconnect the observer and clear both timers. -/
def cleanup (s : DynamicContentLoader) : DynamicContentLoader :=
  { s with observer := false, quietTimer := none, timeoutTimer := none }

/-- `handleComplete()`: guarded by `isComplete`; sets `isComplete`, clears
`isLoading`, releases resources, and invokes `onComplete` if present. -/
def handleComplete (s : DynamicContentLoader) : DynamicContentLoader × List Callback :=
  if s.isComplete then (s, [])
  else
    (cleanup { s with isComplete := true, isLoading := false },
     if s.hasOnComplete then [Callback.complete] else [])

/-- `handleTimeout()`: guarded by `isComplete`; releases resources and invokes
`onTimeout` if present, else `onComplete` as fallback.  Note the source does
NOT set `isComplete` or clear `isLoading` here. -/
def handleTimeout (s : DynamicContentLoader) : DynamicContentLoader × List Callback :=
  if s.isComplete then (s, [])
  else
    (cleanup s,
     if s.hasOnTimeout then [Callback.timeout]
     else if s.hasOnComplete then [Callback.complete] else [])

/-- `handleMutation()`: ignore when already complete, else reset the quiet timer. -/
def handleMutation (now : Nat) (s : DynamicContentLoader) : DynamicContentLoader :=
  if s.isComplete then s else resetQuietTimer now s

/-- `start(onComplete, onTimeout)` called at absolute time `now`;
`targetExists` says whether the observation target element exists
(`document.body` or the `targetSelector` match).  Returns the new state and
the callbacks invoked synchronously during the call (the missing-target path
invokes `handleComplete` immediately). -/
def start (now : Nat) (hasOnComplete hasOnTimeout targetExists : Bool)
    (s : DynamicContentLoader) : DynamicContentLoader × List (Nat × Callback) :=
  if s.isLoading then (s, [])
  else
    let s1 : DynamicContentLoader :=
      { s with isLoading := true, isComplete := false,
               hasOnComplete := hasOnComplete, hasOnTimeout := hasOnTimeout,
               timeoutTimer := some (now + s.maxWaitTime) }
    if targetExists then
      (resetQuietTimer now { s1 with observer := true }, [])
    else
      let r := handleComplete s1
      (r.1, r.2.map (fun c => (now, c)))

/-- `stop()`: no-op unless `isLoading`; otherwise release resources and reset
both flags.  `stop` never invokes a callback, hence the constant `[]`. -/
def stop (s : DynamicContentLoader) : DynamicContentLoader × List Callback :=
  if s.isLoading then ({ cleanup s with isLoading := false, isComplete := false }, [])
  else (s, [])

/-- `isRunning()`. -/
def isRunning (s : DynamicContentLoader) : Bool := s.isLoading

/-- `hasCompleted()`. -/
def hasCompleted (s : DynamicContentLoader) : Bool := s.isComplete

/-! #### Event-loop simulation -/

/-- The earliest pending timer: its deadline and whether it is the absolute
timeout.  On equal deadlines the timeout fires first — it was armed first
(in `start`, before any quiet timer), and the host fires same-deadline timers
in arming order. -/
def nextTimer (s : DynamicContentLoader) : Option (Nat × Bool) :=
  match s.timeoutTimer, s.quietTimer with
  | none, none => none
  | some t, none => some (t, true)
  | none, some q => some (q, false)
  | some t, some q => if t ≤ q then some (t, true) else some (q, false)

/-- The quiet timer fires: the one-shot handle expires, then `handleComplete`
runs. -/
def fireQuiet (s : DynamicContentLoader) : DynamicContentLoader × List Callback :=
  handleComplete { s with quietTimer := none }

/-- The absolute timeout fires: the one-shot handle expires, then
`handleTimeout` runs. -/
def fireTimeout (s : DynamicContentLoader) : DynamicContentLoader × List Callback :=
  handleTimeout { s with timeoutTimer := none }

/-- One event-loop run: `muts` is the (time-ordered) list of future mutation
events on the observed subtree.  At each step the earliest event is
processed: a mutation strictly before every timer deadline is delivered to
`handleMutation` (only if an observer is connected — otherwise the mutation
happens but nobody is notified), else the earliest pending timer fires.
Output callbacks are tagged with their invocation time.  `fuel` bounds the
number of steps; `muts.length + 2` steps always suffice because each step
consumes a mutation or retires a pending timer, and handlers never re-arm
timers. -/
def runAux : Nat → DynamicContentLoader → List Nat →
    DynamicContentLoader × List (Nat × Callback)
  | 0, s, _ => (s, [])
  | Nat.succ fuel, s, muts =>
    match nextTimer s, muts with
    | none, [] => (s, [])
    | none, m :: rest =>
        runAux fuel (if s.observer then handleMutation m s else s) rest
    | some (d, isTO), m :: rest =>
        if m < d then
          runAux fuel (if s.observer then handleMutation m s else s) rest
        else
          let r := if isTO then fireTimeout s else fireQuiet s
          let r2 := runAux fuel r.1 (m :: rest)
          (r2.1, r.2.map (fun c => (d, c)) ++ r2.2)
    | some (d, isTO), [] =>
        let r := if isTO then fireTimeout s else fireQuiet s
        let r2 := runAux fuel r.1 []
        (r2.1, r.2.map (fun c => (d, c)) ++ r2.2)

/-- Run the event loop to quiescence (sufficient fuel). -/
def run (s : DynamicContentLoader) (muts : List Nat) :
    DynamicContentLoader × List (Nat × Callback) :=
  runAux (muts.length + 2) s muts

/-- A full detection session: construct with config `(qp, mw)`, call
`start` at time 0 (with/without each callback, target present or not), then
process the mutation events `muts`.  Returns final state and all timed
callback invocations. -/
def session (qp mw : Nat) (hasOnComplete hasOnTimeout targetExists : Bool)
    (muts : List Nat) : DynamicContentLoader × List (Nat × Callback) :=
  let r := start 0 hasOnComplete hasOnTimeout targetExists (init qp mw)
  let r2 := run r.1 muts
  (r2.1, r.2 ++ r2.2)

/-- A concrete Observing state: a detector mid-observation with
`quietPeriod=500, maxWaitTime=10000`, both timers pending. -/
def observingSample : DynamicContentLoader :=
  { quietPeriod := 500, maxWaitTime := 10000, quietTimer := some 500,
    timeoutTimer := some 10000, observer := true, isLoading := true,
    isComplete := false, hasOnComplete := true, hasOnTimeout := false }

end DynamicContentLoader

/-! ### Event-sequence predicates (used in theorem hypotheses) -/

/-- `gapsLt qp t ms`: starting from an event at time `t`, the times in `ms`
are nondecreasing and each arrives strictly less than `qp` after its
predecessor. -/
def gapsLt (qp : Nat) : Nat → List Nat → Bool
  | _, [] => true
  | t, m :: rest => (decide (t ≤ m) && decide (m < t + qp)) && gapsLt qp m rest

/-- The time of the last event of `t :: ms`. -/
def lastOf : Nat → List Nat → Nat
  | t, [] => t
  | _, m :: rest => lastOf m rest

/-! ### `CCEditorLauncher.waitForDom` -/

/-- The closure state of one `waitForDom(cb)` call: the `is_done` flag, and
whether the `setInterval` timer is still active and the `MutationObserver`
still connected (the `cbs` cleanup list holds exactly these three actions). -/
structure WaitDom where
  is_done : Bool
  timerActive : Bool
  observerActive : Bool
deriving DecidableEq, Repr

/-- What `done()` would do: run every entry of `cbs` — set `is_done`, clear
the interval, disconnect the observer.  In the source, `done` is referenced
only in `run_cb` as `return done`, which yields the function value without
invoking it, so no call site of `done` exists. -/
def wfdDone (s : WaitDom) : WaitDom :=
  { s with is_done := true, timerActive := false, observerActive := false }

/-- `run_cb` as written in the source: `if (is_done) return; if (cb()) return
done;`.  `_c` is the value `cb()` returned; the attempt (second component:
was `cb` invoked?) happens whenever `is_done` is unset, and the state is
unchanged regardless of `_c` because `return done` returns the cleanup
function without calling it. -/
def runCbCode (_c : Bool) (s : WaitDom) : WaitDom × Bool :=
  if s.is_done then (s, false) else (s, true)

/-- State right after the body of `waitForDom` sets everything up:
`setInterval` armed, observer connected. -/
def wfdInit : WaitDom :=
  { is_done := false, timerActive := true, observerActive := true }

/-- One interval tick: if the interval is still active, `run_cb` runs with
the result `c` of this attempt's `cb()`; `k` accumulates how many times the
attempt callback has been executed. -/
def wfdStep (c : Bool) (s : WaitDom) (k : Nat) : WaitDom × Nat :=
  if s.timerActive then
    let r := runCbCode c s
    (r.1, k + (if r.2 then 1 else 0))
  else (s, k)

/-- `waitForDom` followed by `n` interval ticks: the synchronous `run_cb()`
at the end of `waitForDom` is tick 0, then ticks `1..n` are the 500 ms
interval firings.  `cb i` is what the attempt callback returns on tick `i`.
Returns the closure state and the number of attempts executed. -/
def wfdTicks (cb : Nat → Bool) : Nat → WaitDom × Nat
  | 0 =>
    let r := runCbCode (cb 0) wfdInit
    (r.1, if r.2 then 1 else 0)
  | Nat.succ n =>
    let p := wfdTicks cb n
    wfdStep (cb (n + 1)) p.1 p.2

/-! ### Launcher DOM model (`injectButton`, `injected`) -/

/-- `CONFIG.buttonClass`. -/
def buttonClass : String := "cceditor-jump-btn"

/-- `CONFIG.injectClass`: the `CONFIG` object literal defines only
`ccEditorBaseUrl`, `buttonText` and `buttonClass`; reading `injectClass`
yields JavaScript `undefined`, modelled as `none`. -/
def injectClass : Option String := none

/-- JavaScript template-literal interpolation of a possibly-`undefined`
string value: `undefined` prints as the literal text `undefined`. -/
def jsTemplateStr : Option String → String
  | some s => s
  | none => "undefined"

/-- A DOM subtree abstracted as the class names of its descendant elements.
`querySelector("." + c)` finds an element iff some descendant carries
class `c`. -/
def querySelectorClass (c : String) (subtree : List String) : Bool :=
  subtree.contains c

/-- `injectButton(target, imgUrl)`: if the target subtree already contains an
element with `CONFIG.buttonClass`, return without touching the DOM; else
append one button carrying that class. -/
def injectButton (target : List String) : List String :=
  if querySelectorClass buttonClass target then target
  else target ++ [buttonClass]

/-- The `injected` getter: `!!document.body.querySelector(`.${CONFIG.injectClass}`)`,
i.e. a query for class `"undefined"` over the whole body. -/
def launcherInjected (body : List String) : Bool :=
  querySelectorClass (jsTemplateStr injectClass) body

/-! ### `ChubAdapter`: the global regex and its `lastIndex` -/

/-- JS `\w` together with the extra class members of `[\w_\-]`:
ASCII letters, digits, underscore, hyphen. -/
def isWordChar (c : Char) : Bool :=
  c.isAlphanum || c == '_' || c == '-'

/-- The literal part `\/characters\/` of the pattern. -/
def charactersLit : List Char := "/characters/".toList

/-- Consume an exact literal from the front of `s`. -/
def dropLit : List Char → List Char → Option (List Char)
  | [], s => some s
  | _ :: _, [] => none
  | p :: ps, c :: cs => if p == c then dropLit ps cs else none

/-- Try to match `\/characters\/([\w_\-]+)\/([\w_\-]+)` at the start of `s`
(greedy `+`, and since `/` is not a word char the greedy run is the only
candidate).  Returns the match length and the two captures. -/
def tryMatchAt (s : List Char) : Option (Nat × List Char × List Char) :=
  match dropLit charactersLit s with
  | none => none
  | some r1 =>
    let uid := r1.takeWhile isWordChar
    if uid.isEmpty then none
    else
      match r1.drop uid.length with
      | '/' :: r3 =>
        let cid := r3.takeWhile isWordChar
        if cid.isEmpty then none
        else some (charactersLit.length + uid.length + 1 + cid.length, uid, cid)
      | _ => none

/-- Scan `s` (the suffix of the subject starting at index `pos`) for the
first position where the pattern matches; returns
`(matchStart, matchLength, uid, cid)`. -/
def scanAll : List Char → Nat → Option (Nat × Nat × List Char × List Char)
  | s, pos =>
    match tryMatchAt s with
    | some r => some (pos, r.1, r.2.1, r.2.2)
    | none =>
      match s with
      | [] => none
      | _ :: rest => scanAll rest (pos + 1)

/-- First match of the pattern at index ≥ `i` (the pattern has no anchors,
so matching the suffix is matching the subject from `i`). -/
def searchFrom (s : List Char) (i : Nat) : Option (Nat × Nat × List Char × List Char) :=
  scanAll (s.drop i) i

/-- `pattern.test(s)` on a `g`-flagged regex with current `lastIndex`:
on success, `lastIndex` advances to the end of the match; on failure it
resets to 0. -/
def patternTest (li : Nat) (s : List Char) : Bool × Nat :=
  match searchFrom s li with
  | some (st, len, _, _) => (true, st + len)
  | none => (false, 0)

/-- `pattern.exec(s)` on the same shared regex: same `lastIndex` protocol,
but returning the captures. -/
def patternExec (li : Nat) (s : List Char) : Option (List Char × List Char) × Nat :=
  match searchFrom s li with
  | some (st, len, uid, cid) => (some (uid, cid), st + len)
  | none => (none, 0)

/-- `ChubAdapter.match()`: `location.hostname === "chub.ai" &&
this.pattern.test(location.pathname)` — short-circuit: on a foreign host the
regex (and so `lastIndex`) is untouched. -/
def chubMatch (hostname : String) (pathname : List Char) (li : Nat) : Bool × Nat :=
  if hostname == "chub.ai" then patternTest li pathname else (false, li)

/-- The avatar URL built by `getCardImageUrl` from the two captures. -/
def avatarUrl (uid cid : List Char) : String :=
  "https://avatars.charhub.io/avatars/" ++ String.mk uid ++ "/" ++ String.mk cid
    ++ "/chara_card_v2.png"

/-- `ChubAdapter.getCardImageUrl()`: destructure `pattern.exec(pathname) || []`
into `uid`/`cid`; when both are truthy (non-empty strings) build the avatar
URL, else return `null`. -/
def getCardImageUrl (pathname : List Char) (li : Nat) : Option String × Nat :=
  match patternExec li pathname with
  | (some (uid, cid), li2) =>
    if !uid.isEmpty && !cid.isEmpty then (some (avatarUrl uid cid), li2)
    else (none, li2)
  | (none, li2) => (none, li2)

/-! ### Helper lemmas about the event loop -/

namespace DynamicContentLoader

/-- A detector whose observer is disconnected and whose timers are both
cleared can never invoke a callback again: the event loop has nothing left
to deliver to it. -/
lemma runAux_inert (fuel : Nat) (s : DynamicContentLoader) (muts : List Nat)
    (ho : s.observer = false) (hq : s.quietTimer = none)
    (ht : s.timeoutTimer = none) : (runAux fuel s muts).2 = [] := by
  induction fuel generalizing muts with
  | zero => rfl
  | succ n ih =>
    have hnt : nextTimer s = none := by simp [nextTimer, hq, ht]
    cases muts with
    | nil => simp [runAux, hnt]
    | cons m rest =>
      simp only [runAux, hnt, ho]
      simpa using ih rest

/-- Firing either timer emits at most one callback, and if it emits one then
the post-state has released every resource. -/
lemma fire_spec (s : DynamicContentLoader) (isTO : Bool) :
    ((if isTO then fireTimeout s else fireQuiet s).2.length ≤ 1) ∧
    ((if isTO then fireTimeout s else fireQuiet s).2 ≠ [] →
      (if isTO then fireTimeout s else fireQuiet s).1.observer = false ∧
      (if isTO then fireTimeout s else fireQuiet s).1.quietTimer = none ∧
      (if isTO then fireTimeout s else fireQuiet s).1.timeoutTimer = none) := by
  cases isTO <;> by_cases hC : s.isComplete <;>
    cases hoc : s.hasOnComplete <;> cases hot : s.hasOnTimeout <;>
    simp [fireTimeout, fireQuiet, handleTimeout, handleComplete, cleanup, hC, hoc, hot]

/-- At most one terminal callback is ever emitted by the event loop, from any
state whatsoever. -/
lemma runAux_length_le_one (fuel : Nat) : ∀ (s : DynamicContentLoader)
    (muts : List Nat), (runAux fuel s muts).2.length ≤ 1 := by
  induction fuel with
  | zero => intro s muts; simp [runAux]
  | succ n ih =>
    intro s muts
    cases hnt : nextTimer s with
    | none =>
      cases muts with
      | nil => simp [runAux, hnt]
      | cons m rest => simp only [runAux, hnt]; exact ih _ _
    | some p =>
      obtain ⟨d, isTO⟩ := p
      have hfire : ((if isTO then fireTimeout s else fireQuiet s).2.map
            (fun c => (d, c)) ++
            (runAux n (if isTO then fireTimeout s else fireQuiet s).1 muts).2).length ≤ 1 := by
        cases hr : (if isTO then fireTimeout s else fireQuiet s).2 with
        | nil => simpa [hr] using ih _ muts
        | cons c cs =>
          have hspec := fire_spec s isTO
          rw [hr] at hspec
          have hcs : cs = [] := by
            have := hspec.1
            simp at this
            simpa using this
          obtain ⟨ho, hq, ht⟩ := hspec.2 (by simp)
          subst hcs
          simp [runAux_inert n _ muts ho hq ht]
      cases muts with
      | nil =>
        simp only [runAux, hnt]
        exact hfire
      | cons m rest =>
        simp only [runAux, hnt]
        by_cases hm : m < d
        · simp only [if_pos hm]; exact ih _ _
        · simp only [if_neg hm]; exact hfire

end DynamicContentLoader

/-- An event at `t` followed by gap-bounded events never ends before `t`. -/
lemma lastOf_ge (qp : Nat) : ∀ (ms : List Nat) (t : Nat),
    gapsLt qp t ms = true → t ≤ lastOf t ms := by
  intro ms
  induction ms with
  | nil => intro t _; simp [lastOf]
  | cons m rest ih =>
    intro t h
    simp only [gapsLt, Bool.and_eq_true, decide_eq_true_eq] at h
    obtain ⟨⟨h1, _⟩, h3⟩ := h
    simpa [lastOf] using le_trans h1 (ih m h3)

namespace DynamicContentLoader

/-- Quiet-path run: from an observing, not-complete state whose quiet timer
is armed at `t + qp` and whose absolute timeout `W` lies beyond every
re-armed quiet deadline, a gap-bounded mutation sequence makes the loop emit
exactly one `onComplete`, at the last event time plus `qp`. -/
lemma runAux_quiet (qp W : Nat) :
    ∀ (ms : List Nat) (t fuel : Nat) (s : DynamicContentLoader),
    s.quietPeriod = qp →
    s.observer = true → s.isComplete = false → s.hasOnComplete = true →
    s.quietTimer = some (t + qp) → s.timeoutTimer = some W →
    gapsLt qp t ms = true →
    lastOf t ms + qp < W →
    ms.length + 2 ≤ fuel →
    (runAux fuel s ms).2 = [(lastOf t ms + qp, Callback.complete)] := by
  intro ms
  induction ms with
  | nil =>
    intro t fuel s hqp ho hic hhc hq htt _hg hlast hfuel
    simp only [lastOf] at hlast ⊢
    match fuel, hfuel with
    | Nat.succ f, _ =>
      have hnt : nextTimer s = some (t + qp, false) := by
        simp only [nextTimer, hq, htt]
        rw [if_neg (by omega)]
      have hfq : fireQuiet s
          = (cleanup { s with quietTimer := none, isComplete := true,
                              isLoading := false }, [Callback.complete]) := by
        simp [fireQuiet, handleComplete, hic, hhc]
      have hinert := runAux_inert f
        (cleanup { s with quietTimer := none, isComplete := true, isLoading := false })
        [] (by simp [cleanup]) (by simp [cleanup]) (by simp [cleanup])
      simp [runAux, hnt, hfq, hinert]
  | cons m rest ih =>
    intro t fuel s hqp ho hic hhc hq htt hg hlast hfuel
    simp only [gapsLt, Bool.and_eq_true, decide_eq_true_eq] at hg
    obtain ⟨⟨h1, h2⟩, h3⟩ := hg
    simp only [lastOf] at hlast ⊢
    have hmlast : m ≤ lastOf m rest := lastOf_ge qp rest m h3
    match fuel, hfuel with
    | Nat.succ f, hfuel =>
      have hnt : nextTimer s = some (t + qp, false) := by
        simp only [nextTimer, hq, htt]
        rw [if_neg (by omega)]
      have hmut : handleMutation m s
          = { s with quietTimer := some (m + qp) } := by
        simp [handleMutation, hic, resetQuietTimer, hqp]
      have hrec := ih m f { s with quietTimer := some (m + qp) }
        hqp ho hic hhc rfl htt h3 hlast
        (by simpa using Nat.le_of_succ_le_succ hfuel)
      simp only [runAux, hnt]
      rw [if_pos h2, if_pos ho, hmut]
      exact hrec

/-- Timeout-path run: if the gap-bounded mutations extend to `W` or beyond,
the loop emits exactly one callback, at `W`: `onTimeout` when registered,
else `onComplete`. -/
lemma runAux_timeout (qp W : Nat) :
    ∀ (ms : List Nat) (t fuel : Nat) (s : DynamicContentLoader),
    s.quietPeriod = qp →
    s.observer = true → s.isComplete = false → s.hasOnComplete = true →
    s.quietTimer = some (t + qp) → s.timeoutTimer = some W →
    gapsLt qp t ms = true →
    W ≤ lastOf t ms →
    ms.length + 2 ≤ fuel →
    (runAux fuel s ms).2
      = [(W, if s.hasOnTimeout then Callback.timeout else Callback.complete)] := by
  intro ms
  induction ms with
  | nil =>
    intro t fuel s hqp ho hic hhc hq htt _hg hlast hfuel
    simp only [lastOf] at hlast
    match fuel, hfuel with
    | Nat.succ f, _ =>
      have hnt : nextTimer s = some (W, true) := by
        simp only [nextTimer, hq, htt]
        rw [if_pos (by omega)]
      have hft : fireTimeout s
          = (cleanup { s with timeoutTimer := none },
             if s.hasOnTimeout then [Callback.timeout] else [Callback.complete]) := by
        simp [fireTimeout, handleTimeout, hic, hhc]
      have hinert := runAux_inert f (cleanup { s with timeoutTimer := none })
        [] (by simp [cleanup]) (by simp [cleanup]) (by simp [cleanup])
      cases hot : s.hasOnTimeout <;>
        (simp only [hot] at hft hinert; simp [runAux, hnt, hft, hinert])
  | cons m rest ih =>
    intro t fuel s hqp ho hic hhc hq htt hg hlast hfuel
    simp only [gapsLt, Bool.and_eq_true, decide_eq_true_eq] at hg
    obtain ⟨⟨h1, h2⟩, h3⟩ := hg
    simp only [lastOf] at hlast ⊢
    match fuel, hfuel with
    | Nat.succ f, hfuel =>
      by_cases hmW : m < W
      · -- the mutation is delivered before any deadline
        have hmut : handleMutation m s
            = { s with quietTimer := some (m + qp) } := by
          simp [handleMutation, hic, resetQuietTimer, hqp]
        have hrec := ih m f { s with quietTimer := some (m + qp) }
          hqp ho hic hhc rfl htt h3 hlast
          (by simpa using Nat.le_of_succ_le_succ hfuel)
        by_cases hW : W ≤ t + qp
        · have hnt : nextTimer s = some (W, true) := by
            simp only [nextTimer, hq, htt]
            rw [if_pos hW]
          simp only [runAux, hnt]
          rw [if_pos hmW, if_pos ho, hmut]
          exact hrec
        · have hnt : nextTimer s = some (t + qp, false) := by
            simp only [nextTimer, hq, htt]
            rw [if_neg hW]
          simp only [runAux, hnt]
          rw [if_pos h2, if_pos ho, hmut]
          exact hrec
      · -- the timeout deadline precedes the next mutation: it fires now
        have hWle : W ≤ t + qp := by omega
        have hnt : nextTimer s = some (W, true) := by
          simp only [nextTimer, hq, htt]
          rw [if_pos hWle]
        have hft : fireTimeout s
            = (cleanup { s with timeoutTimer := none },
               if s.hasOnTimeout then [Callback.timeout] else [Callback.complete]) := by
          simp [fireTimeout, handleTimeout, hic, hhc]
        have hinert := runAux_inert f (cleanup { s with timeoutTimer := none })
          (m :: rest) (by simp [cleanup]) (by simp [cleanup]) (by simp [cleanup])
        cases hot : s.hasOnTimeout <;>
          (simp only [hot] at hft hinert; simp [runAux, hnt, hft, hinert, if_neg hmW])

/-- `start` emits at most one callback synchronously (only on the
missing-target path), and if it does emit one, the resulting state holds no
resources. -/
lemma start_spec (now : Nat) (hc ht tgt : Bool) (s : DynamicContentLoader) :
    ((start now hc ht tgt s).2.length ≤ 1) ∧
    ((start now hc ht tgt s).2 ≠ [] →
      (start now hc ht tgt s).1.observer = false ∧
      (start now hc ht tgt s).1.quietTimer = none ∧
      (start now hc ht tgt s).1.timeoutTimer = none) := by
  by_cases hl : s.isLoading = true <;> cases tgt <;> cases hc <;>
    simp [start, handleComplete, cleanup, hl]

end DynamicContentLoader

/-! ### Claim theorems -/

namespace DynamicContentLoader

/-- C1 (Debounce correctness): start the detector at time 0 with an
`onComplete` callback and an existing target; if every mutation arrives
strictly less than `quietPeriod` after the previous event (the start
counting as the event at time 0) and the quiet deadline after the last
mutation precedes the `maxWaitTime` deadline, then `onComplete` is invoked
exactly once, exactly at the last mutation time plus `quietPeriod` — never
earlier and never again. -/
theorem c1_debounce_correctness (qp mw : Nat) (ht : Bool) (ms : List Nat)
    (_hne : ms ≠ []) (hg : gapsLt qp 0 ms = true)
    (hlast : lastOf 0 ms + qp < mw) :
    (session qp mw true ht true ms).2
      = [(lastOf 0 ms + qp, Callback.complete)] := by
  have hS : start 0 true ht true (init qp mw)
      = ({ quietPeriod := qp, maxWaitTime := mw, quietTimer := some (0 + qp),
           timeoutTimer := some (0 + mw), observer := true, isLoading := true,
           isComplete := false, hasOnComplete := true, hasOnTimeout := ht }, []) := rfl
  have hrun := runAux_quiet qp (0 + mw) ms 0 (ms.length + 2)
    { quietPeriod := qp, maxWaitTime := mw, quietTimer := some (0 + qp),
      timeoutTimer := some (0 + mw), observer := true, isLoading := true,
      isComplete := false, hasOnComplete := true, hasOnTimeout := ht }
    rfl rfl rfl rfl rfl rfl hg (by omega) le_rfl
  simp only [session, run, hS]
  simpa using hrun

/-- C1 witness: the spec scenario `quietPeriod=500, maxWaitTime=10000`,
mutations at t=0,100,300 then nothing: `onComplete` fires at t=800. -/
theorem c1_debounce_correctness_witness :
    ([0, 100, 300] ≠ ([] : List Nat)) ∧ gapsLt 500 0 [0, 100, 300] = true ∧
    lastOf 0 [0, 100, 300] + 500 < 10000 ∧
    (session 500 10000 true false true [0, 100, 300]).2
      = [(800, Callback.complete)] :=
  ⟨by decide, by decide, by decide, by
    simpa using c1_debounce_correctness 500 10000 false [0, 100, 300]
      (by decide) (by decide) (by decide)⟩

/-- C2 (Timeout ceiling): if gap-bounded mutations keep arriving up to (at
least) the `maxWaitTime` deadline, exactly one terminal callback is invoked,
exactly at `maxWaitTime` after start; it is `onTimeout` when one was passed
to `start`, else `onComplete`. -/
theorem c2_timeout_ceiling (qp mw : Nat) (ht : Bool) (ms : List Nat)
    (hg : gapsLt qp 0 ms = true) (hlast : mw ≤ lastOf 0 ms) :
    (session qp mw true ht true ms).2
      = [(mw, if ht then Callback.timeout else Callback.complete)] := by
  have hS : start 0 true ht true (init qp mw)
      = ({ quietPeriod := qp, maxWaitTime := mw, quietTimer := some (0 + qp),
           timeoutTimer := some (0 + mw), observer := true, isLoading := true,
           isComplete := false, hasOnComplete := true, hasOnTimeout := ht }, []) := rfl
  have hrun := runAux_timeout qp (0 + mw) ms 0 (ms.length + 2)
    { quietPeriod := qp, maxWaitTime := mw, quietTimer := some (0 + qp),
      timeoutTimer := some (0 + mw), observer := true, isLoading := true,
      isComplete := false, hasOnComplete := true, hasOnTimeout := ht }
    rfl rfl rfl rfl rfl rfl hg (by omega) le_rfl
  simp only [session, run, hS]
  simpa using hrun

/-- C2 witness: `quietPeriod=500, maxWaitTime=1000`, mutations every 300 ms
through the deadline, `onTimeout` provided: it fires exactly at t=1000. -/
theorem c2_timeout_ceiling_witness :
    gapsLt 500 0 [0, 300, 600, 900, 1200] = true ∧
    1000 ≤ lastOf 0 [0, 300, 600, 900, 1200] ∧
    (session 500 1000 true true true [0, 300, 600, 900, 1200]).2
      = [(1000, Callback.timeout)] :=
  ⟨by decide, by decide, by
    simpa using c2_timeout_ceiling 500 1000 true [0, 300, 600, 900, 1200]
      (by decide) (by decide)⟩

/-- C3 (Idempotent completion): in every possible run of a detection session
— any config, any callback registration, target present or missing, and any
sequence of mutation events — at most one terminal callback is ever invoked.
Once one has fired, no later quiet-timer, timeout, or mutation delivery
invokes `onComplete` or `onTimeout` again: the firing handler released the
observer and both timers, so the event loop has nothing left to deliver. -/
theorem c3_idempotent_completion (qp mw : Nat) (hc ht tgt : Bool)
    (muts : List Nat) : (session qp mw hc ht tgt muts).2.length ≤ 1 := by
  have h1 := start_spec 0 hc ht tgt (init qp mw)
  simp only [session, run]
  cases he : (start 0 hc ht tgt (init qp mw)).2 with
  | nil => simpa [he] using runAux_length_le_one _ _ _
  | cons c cs =>
    rw [he] at h1
    have hcs : cs = [] := by
      have := h1.1
      simpa using this
    obtain ⟨ho, hq, htm⟩ := h1.2 (by simp)
    subst hcs
    simp [he, runAux_inert _ _ muts ho hq htm]

/-- C4 evidence (the claim is right, the code is wrong): a concrete session
in which the absolute timeout fires while Observing.  The detector does
release its resources and invoke the terminal callback (here the
`onComplete` fallback at t=400), but `handleTimeout` never sets
`isComplete`/clears `isLoading`, so afterwards `hasCompleted()` is `false`
and `isRunning()` is `true` — not `Completed` as on the quiet path, contrary
to the claim and to the methods' own documented meaning. -/
theorem c4_timeout_leaves_running :
    (session 500 400 true false true [300]).2 = [(400, Callback.complete)] ∧
    hasCompleted (session 500 400 true false true [300]).1 = false ∧
    isRunning (session 500 400 true false true [300]).1 = true ∧
    (session 500 400 true false true [300]).1.observer = false ∧
    (session 500 400 true false true [300]).1.quietTimer = none ∧
    (session 500 400 true false true [300]).1.timeoutTimer = none := by
  decide

end DynamicContentLoader

/-- C5 evidence (the claim is right, the code is wrong): `run_cb` ends in
`return done`, which yields the `done` function as a value without ever
calling it, so no execution path runs the cleanup list.  Concretely: the
attempt callback returns `true` on its very first invocation, yet after one
more interval tick the attempt has executed twice, `is_done` is still unset,
and the interval and observer are both still active — contradicting "the
polling interval is cleared and the mutation observer is disconnected, so no
further attempt is ever executed". -/
theorem c5_wait_for_dom_never_stops :
    (wfdTicks (fun _ => true) 1).2 = 2 ∧
    (wfdTicks (fun _ => true) 1).1.is_done = false ∧
    (wfdTicks (fun _ => true) 1).1.timerActive = true ∧
    (wfdTicks (fun _ => true) 1).1.observerActive = true ∧
    (wfdTicks (fun _ => true) 5).2 = 6 := by
  decide

/-- One attempt preserves "at most one injected button in the target". -/
lemma injectButton_count_le (t : List String)
    (h : t.count buttonClass ≤ 1) : (injectButton t).count buttonClass ≤ 1 := by
  unfold injectButton querySelectorClass
  by_cases hc : t.contains buttonClass
  · rw [if_pos hc]
    exact h
  · rw [if_neg hc]
    have hnm : buttonClass ∉ t := by simpa using hc
    simp [List.count_eq_zero.mpr hnm]

/-- C6 (Injection at-most-once): starting from a target subtree holding no
`cceditor-jump-btn` element, any number of `injectButton` attempts leaves at
most one such element in the target; and any attempt made while the target
already contains one returns without modifying the DOM. -/
theorem c6_injection_at_most_once (target : List String) (n : Nat) :
    (target.count buttonClass = 0 →
      (injectButton^[n] target).count buttonClass ≤ 1) ∧
    (querySelectorClass buttonClass target = true →
      injectButton target = target) := by
  constructor
  · intro h0
    induction n with
    | zero => simp [h0]
    | succ k ih =>
      rw [Function.iterate_succ_apply']
      exact injectButton_count_le _ ih
  · intro h
    simp [injectButton, h]

/-- C6 witness: three attempts on a fresh target leave one button; an attempt
on a target that already holds the button is the identity. -/
theorem c6_injection_at_most_once_witness :
    ((injectButton^[3] ["site-header"]).count buttonClass ≤ 1) ∧
    injectButton ["site-header", buttonClass] = ["site-header", buttonClass] :=
  ⟨(c6_injection_at_most_once ["site-header"] 3).1 (by decide),
   (c6_injection_at_most_once ["site-header", buttonClass] 0).2 (by decide)⟩

namespace DynamicContentLoader

/-- C7 counterexample: after a quiet-path completion (`start` at 0, no
mutations, completion at t=500) the detector is `Completed` with
`isLoading = false`, so `stop()` takes its early-return path: it is a no-op
and `hasCompleted()` still returns `true` afterwards — the claim says
`stop()` from `Completed` leaves the detector `Idle` with `hasCompleted()`
returning `false`. -/
theorem c7_stop_counterexample :
    hasCompleted (session 500 10000 true false true []).1 = true ∧
    isRunning (session 500 10000 true false true []).1 = false ∧
    stop (session 500 10000 true false true []).1
      = ((session 500 10000 true false true []).1, []) ∧
    hasCompleted (stop (session 500 10000 true false true []).1).1 = true := by
  decide

/-- C7 amended: `stop()` invokes neither callback ever.  From `Observing`
(`isLoading = true`) it releases the observer and both timers and leaves the
detector Idle (`isRunning()` and `hasCompleted()` both false afterwards).
But from a state with `isLoading = false` — in particular from `Completed`
via the quiet path — `stop()` is a complete no-op, so `hasCompleted()`
remains `true` there rather than becoming `false`. -/
theorem c7_stop_amended (s : DynamicContentLoader) :
    ((stop s).2 = []) ∧
    (s.isLoading = true →
      isRunning (stop s).1 = false ∧ hasCompleted (stop s).1 = false ∧
      (stop s).1.observer = false ∧ (stop s).1.quietTimer = none ∧
      (stop s).1.timeoutTimer = none) ∧
    (s.isLoading = false → stop s = (s, [])) := by
  cases hl : s.isLoading <;>
    simp [stop, isRunning, hasCompleted, cleanup, hl]

/-- C7 witness: the amended theorem applied to a concrete Observing state and
to the concrete quiet-path-Completed state. -/
theorem c7_stop_amended_witness :
    (isRunning (stop observingSample).1 = false ∧
     hasCompleted (stop observingSample).1 = false ∧
     (stop observingSample).1.observer = false ∧
     (stop observingSample).1.quietTimer = none ∧
     (stop observingSample).1.timeoutTimer = none) ∧
    stop (session 500 10000 true false true []).1
      = ((session 500 10000 true false true []).1, []) :=
  ⟨(c7_stop_amended observingSample).2.1 rfl,
   (c7_stop_amended (session 500 10000 true false true []).1).2.2 (by decide)⟩

/-- C8 (Double-start rejection): calling `start` on a detector that is
already Observing (`isLoading = true`) returns with no state change and no
callback: the original observer, pending quiet timer, original
`maxWaitTime` deadline and registered callbacks all survive untouched. -/
theorem c8_double_start_rejected (s : DynamicContentLoader) (t : Nat)
    (hc ht tgt : Bool) (h : s.isLoading = true) :
    start t hc ht tgt s = (s, []) := by
  simp [start, h]

/-- C8 witness: a second `start` at t=777 on a concrete Observing state with
deadline 10000 changes nothing — in particular the original timeout deadline
still stands. -/
theorem c8_double_start_rejected_witness :
    observingSample.isLoading = true ∧
    start 777 false true false observingSample = (observingSample, []) :=
  ⟨rfl, c8_double_start_rejected observingSample 777 false true false rfl⟩

end DynamicContentLoader

/-- C9 (broken `injected` getter): `CONFIG.injectClass` does not exist, so
the getter's selector is the literal `.undefined`; on any body containing no
element of class `"undefined"` the getter returns `false`, and it still
returns `false` immediately after a `cceditor-jump-btn` button is appended.
The at-most-once guarantee therefore rests solely on `injectButton`'s
per-target check. -/
theorem c9_injected_getter_false (body : List String)
    (h : body.contains "undefined" = false) :
    launcherInjected body = false ∧
    launcherInjected (body ++ [buttonClass]) = false := by
  have hnm : ("undefined" : String) ∉ body := by simpa using h
  constructor
  · simpa [launcherInjected, querySelectorClass, jsTemplateStr, injectClass] using h
  · have hall : ("undefined" : String) ∉ body ++ [buttonClass] := by
      intro hmem
      rcases List.mem_append.mp hmem with h1 | h2
      · exact hnm h1
      · simp [buttonClass] at h2
    simpa [launcherInjected, querySelectorClass, jsTemplateStr, injectClass] using hall

/-- C9 witness: a body with an unrelated class, before and after injection. -/
theorem c9_injected_getter_false_witness :
    launcherInjected ["site-header"] = false ∧
    launcherInjected (["site-header"] ++ [buttonClass]) = false :=
  c9_injected_getter_false ["site-header"] (by decide)

/-- A successful anchored match has non-empty captures: the `+` quantifier in
both groups requires at least one word character. -/
lemma tryMatchAt_captures (s : List Char) (len : Nat) (uid cid : List Char)
    (h : tryMatchAt s = some (len, uid, cid)) :
    uid.isEmpty = false ∧ cid.isEmpty = false := by
  unfold tryMatchAt at h
  cases hd : dropLit charactersLit s with
  | none => rw [hd] at h; exact absurd h (by simp)
  | some r1 =>
    rw [hd] at h
    simp only at h
    by_cases h1 : (r1.takeWhile isWordChar).isEmpty
    · rw [if_pos h1] at h; exact absurd h (by simp)
    · rw [if_neg h1] at h
      cases h2 : r1.drop (r1.takeWhile isWordChar).length with
      | nil => rw [h2] at h; exact absurd h (by simp)
      | cons c r3 =>
        rw [h2] at h
        by_cases hc : c = '/'
        · subst hc
          simp only at h
          by_cases h3 : (r3.takeWhile isWordChar).isEmpty
          · rw [if_pos h3] at h; exact absurd h (by simp)
          · rw [if_neg h3] at h
            simp only [Option.some.injEq, Prod.mk.injEq] at h
            obtain ⟨-, h4, h5⟩ := h
            subst h4; subst h5
            exact ⟨by simpa using h1, by simpa using h3⟩
        · have : (match c :: r3 with
              | '/' :: r3 =>
                let cid := r3.takeWhile isWordChar
                if cid.isEmpty then none
                else some (charactersLit.length
                  + (r1.takeWhile isWordChar).length + 1 + cid.length,
                  r1.takeWhile isWordChar, cid)
              | _ => (none : Option (Nat × List Char × List Char))) = none := by
            cases c with
            | mk v vc =>
              simp only []
              split
              · rename_i heq
                exact absurd heq (by
                  intro hh
                  apply hc
                  exact (List.cons.injEq _ _ _ _ ▸ hh).1 ▸ rfl)
              · rfl
          rw [this] at h
          exact absurd h (by simp)

/-- Every match found by the scan has non-empty captures. -/
lemma scanAll_captures : ∀ (s : List Char) (pos st len : Nat)
    (uid cid : List Char), scanAll s pos = some (st, len, uid, cid) →
    uid.isEmpty = false ∧ cid.isEmpty = false := by
  intro s
  induction s with
  | nil =>
    intro pos st len uid cid h
    rw [scanAll] at h
    rw [show tryMatchAt [] = none from rfl] at h
    exact absurd h (by simp)
  | cons c rest ih =>
    intro pos st len uid cid h
    rw [scanAll] at h
    cases htm : tryMatchAt (c :: rest) with
    | some r =>
      rw [htm] at h
      simp only [Option.some.injEq, Prod.mk.injEq] at h
      obtain ⟨-, h1, h2, h3⟩ := h
      exact tryMatchAt_captures (c :: rest) r.1 uid cid (by
        rw [htm, ← h2, ← h3])
    | none =>
      rw [htm] at h
      exact ih (pos + 1) st len uid cid h

/-- C10 counterexample: the claim quantifies over *every* matching pathname,
but on a pathname containing a second match after the first —
`/characters/a/b/characters/c/d` — `match()` returns `true` advancing
`lastIndex` to 15, and the immediately following `getCardImageUrl()` does
NOT return `null`: `exec` resumes at `lastIndex` 15, finds the second match,
and returns the avatar URL built from `c`/`d`. -/
theorem c10_regex_counterexample :
    chubMatch "chub.ai" "/characters/a/b/characters/c/d".toList 0 = (true, 15) ∧
    (getCardImageUrl "/characters/a/b/characters/c/d".toList 15).1
      = some "https://avatars.charhub.io/avatars/c/d/chara_card_v2.png" := by
  decide

/-- C10 amended: the claimed stateful cycle holds whenever the pattern has no
second match after the first one's end (in particular for the ordinary
single-match card pathnames).  On `chub.ai`, for a pathname whose first match
spans `[st, st+len)` with captures `uid`/`cid` and with no further match at
or beyond `st+len`: `match()` returns `true` and advances `lastIndex` to
`st+len`; the immediately following `getCardImageUrl()` finds no match from
`lastIndex`, returns `null` and resets `lastIndex` to 0; the next
`getCardImageUrl()` then returns the avatar URL built from `uid` and `cid`. -/
theorem c10_regex_statefulness (host : String) (path : List Char)
    (st len : Nat) (uid cid : List Char) (hhost : host = "chub.ai")
    (h0 : searchFrom path 0 = some (st, len, uid, cid))
    (h1 : searchFrom path (st + len) = none) :
    chubMatch host path 0 = (true, st + len) ∧
    getCardImageUrl path (st + len) = (none, 0) ∧
    (getCardImageUrl path 0).1 = some (avatarUrl uid cid) := by
  subst hhost
  have hcap := scanAll_captures path 0 st len uid cid
    (by simpa [searchFrom] using h0)
  refine ⟨?_, ?_, ?_⟩
  · simp [chubMatch, patternTest, h0]
  · simp [getCardImageUrl, patternExec, h1]
  · simp [getCardImageUrl, patternExec, h0, hcap.1, hcap.2]

/-- C10 witness: the ordinary card pathname `/characters/a/b`. -/
theorem c10_regex_statefulness_witness :
    (searchFrom "/characters/a/b".toList 0 = some (0, 15, ['a'], ['b'])) ∧
    (searchFrom "/characters/a/b".toList 15 = none) ∧
    chubMatch "chub.ai" "/characters/a/b".toList 0 = (true, 0 + 15) ∧
    getCardImageUrl "/characters/a/b".toList (0 + 15) = (none, 0) ∧
    (getCardImageUrl "/characters/a/b".toList 0).1
      = some (avatarUrl ['a'] ['b']) :=
  ⟨by decide, by decide,
   (c10_regex_statefulness "chub.ai" "/characters/a/b".toList 0 15 ['a'] ['b']
      rfl (by decide) (by decide)).1,
   (c10_regex_statefulness "chub.ai" "/characters/a/b".toList 0 15 ['a'] ['b']
      rfl (by decide) (by decide)).2.1,
   (c10_regex_statefulness "chub.ai" "/characters/a/b".toList 0 15 ['a'] ['b']
      rfl (by decide) (by decide)).2.2⟩
